import Mathlib

/-!
Shallow embedding of `BookmarkServer.py`, a URI-shortening HTTP service.

The embedding models:
* the outbound network as an oracle mapping each issued GET request to an
  outcome (a status code, or one of the exception kinds `requests` can raise);
* `CheckURI` as a function from that oracle to `Except` (an uncaught Python
  exception is an `Except.error`), together with the trace of GET requests it
  issues;
* the module-level dictionary `memory` as an association list with Python
  dict semantics (`Insert` replaces in place, `Lookup` finds the unique key);
* the two handler methods `Shortener.do_GET` and `Shortener.do_POST` as pure
  functions from the request data and the store to the list of responses
  sent, the new store, the network trace, and an optional uncaught exception.

Timeout durations are modelled in tenths of a second so that the literal
`timeout=2.0` of `requests.get` is the exact value `20`.
-/

set_option maxRecDepth 8000

namespace BookmarkServer

/-- Outcome of one outbound GET, as the `requests` library reports it to
`CheckURI`: either a completed response with a status code, or an exception. -/
inductive GetOutcome where
  | status (code : Nat)
  | missingSchema
  | timedOut
  | connectionError
  | otherTransportError
deriving DecidableEq, Repr

/-- One GET request issued through `requests.get`: the target URI and the
timeout passed to the library, in tenths of a second. -/
structure GetRequest where
  uri : String
  timeoutTenths : Nat
deriving DecidableEq, Repr

/-- The network oracle: what outcome each issued request has. -/
abbrev Net : Type := GetRequest → GetOutcome

/-- Python exceptions that the handler code can raise or let propagate. -/
inductive PyExn where
  | keyError (key : String)
  | indexError
  | requestsTimeout
  | requestsConnectionError
  | requestsOtherError
deriving DecidableEq, Repr

/-- The hard-coded `timeout=2.0` argument of the `requests.get` call inside
`CheckURI`, in tenths of a second. -/
def requestTimeoutTenths : Nat := 20

/-- The default value of the `timeout` parameter of `CheckURI` (in seconds);
the parameter is never read by the function body. -/
def checkURIDefaultTimeout : Nat := 5

/-- Embedding of `CheckURI(uri, timeout=5)` (lines 55-68).  The body runs
`requests.get(url=uri, timeout=2.0)` in a `try` that catches only
`requests.exceptions.MissingSchema`; on a completed response it returns
`r.status_code == 200`.  Every other exception kind propagates, which the
embedding records as `Except.error`.  The result is paired with the list of
GET requests issued (always exactly one).  The `timeout` parameter (in
seconds, default 5) is unused by the source body. -/
def CheckURI (net : Net) (uri : String) (timeout : Nat) :
    Except PyExn Bool × List GetRequest :=
  let req : GetRequest := { uri := uri, timeoutTenths := requestTimeoutTenths }
  match net req with
  | GetOutcome.status code => (Except.ok (code == 200), [req])
  | GetOutcome.missingSchema => (Except.ok false, [req])
  | GetOutcome.timedOut => (Except.error PyExn.requestsTimeout, [req])
  | GetOutcome.connectionError => (Except.error PyExn.requestsConnectionError, [req])
  | GetOutcome.otherTransportError => (Except.error PyExn.requestsOtherError, [req])

/-- Python `dict` lookup on an association list: the first matching key wins
(keys are unique in any list built by `dictSet`). -/
def dictGet {β : Type} (d : List (String × β)) (key : String) : Option β :=
  match d with
  | [] => none
  | (k, v) :: rest => if k = key then some v else dictGet rest key

/-- Python `d[key] = value` on an association list: replace the value in
place if the key is present, else append the new pair (insertion order is
preserved, as in a Python dict). -/
def dictSet {β : Type} (d : List (String × β)) (key : String) (value : β) :
    List (String × β) :=
  match d with
  | [] => [(key, value)]
  | (k, v) :: rest =>
      if k = key then (key, value) :: rest else (k, v) :: dictSet rest key value

/-- The module-level `memory` dictionary: short alias to long URI. -/
abbrev Store : Type := List (String × String)

/-- `memory[name]` as an optional read (`Lookup` in the specification). -/
def Lookup (m : Store) (name : String) : Option String :=
  dictGet m name

/-- `memory[name] = uri` (`Insert` in the specification). -/
def Insert (m : Store) (name uri : String) : Store :=
  dictSet m name uri

/-- The initial value of `memory` (line 33): the empty dict. -/
def emptyStore : Store := []

/-- Apply a sequence of `Insert` calls, oldest first. -/
def applyInserts (m : Store) (ops : List (String × String)) : Store :=
  match ops with
  | [] => m
  | (a, u) :: rest => applyInserts (BookmarkServer.Insert m a u) rest

/-- Value of a hexadecimal digit character, if it is one. -/
def hexDigit (c : Char) : Option Nat :=
  if '0' ≤ c ∧ c ≤ '9' then some (c.toNat - '0'.toNat)
  else if 'a' ≤ c ∧ c ≤ 'f' then some (c.toNat - 'a'.toNat + 10)
  else if 'A' ≤ c ∧ c ≤ 'F' then some (c.toNat - 'A'.toNat + 10)
  else none

/-- Character-level embedding of `urllib.parse.unquote`: a `%` followed by
two hexadecimal digits decodes to the character with that code; a `%` not
followed by two hexadecimal digits is kept literally, as `unquote` keeps
invalid sequences unchanged.  (Faithful on the single-byte range the claims
exercise; multi-byte UTF-8 percent-sequences are out of scope.) -/
def unquoteChars : List Char → List Char
  | [] => []
  | '%' :: h1 :: h2 :: rest =>
      match hexDigit h1, hexDigit h2 with
      | some d1, some d2 => Char.ofNat (16 * d1 + d2) :: unquoteChars rest
      | _, _ => '%' :: unquoteChars (h1 :: h2 :: rest)
  | c :: rest => c :: unquoteChars rest

/-- `urllib.parse.unquote` on a string. -/
def unquote (s : String) : String := String.mk (unquoteChars s.data)

/-- Python `self.path[1:]`: the request path minus its first character. -/
def stripSlash (path : String) : String := String.mk (path.data.drop 1)

/-- One HTTP response as the handler emits it: status code, headers in
order, body text.  For `send_error` responses, `body` records the `message`
argument, which `send_error` embeds in its HTML error page. -/
structure Response where
  status : Nat
  headers : List (String × String)
  body : String
deriving DecidableEq, Repr

/-- `self.send_error(code, message)` (the message ends up in the body of the
error page generated by the base handler). -/
def errorResponse (code : Nat) (message : String) : Response :=
  { status := code, headers := [], body := message }

/-- Strict lexicographic comparison of character lists by code point,
mirroring how Python compares `str` values in `sorted`. -/
def lexLt : List Char → List Char → Bool
  | [], [] => false
  | [], _ :: _ => true
  | _ :: _, [] => false
  | a :: as, b :: bs =>
      if a.toNat < b.toNat then true
      else if b.toNat < a.toNat then false
      else lexLt as bs

/-- Strict lexicographic (case-sensitive, code-point) order on strings. -/
def strLt (a b : String) : Bool := lexLt a.data b.data

/-- Reflexive lexicographic order on strings. -/
def strLe (a b : String) : Bool := strLt a b || a == b

/-- The `sorted(memory.keys())` expression of line 100: the keys of the
store in ascending lexicographic (code-point) order. -/
def sortedKeys (m : Store) : List String :=
  List.insertionSort (fun a b => strLe a b = true) (m.map Prod.fst)

/-- One line of the listing: `"{} : {}".format(key, memory[key])`. -/
def listingLine (m : Store) (key : String) : String :=
  key ++ " : " ++ (Lookup m key).getD ""

/-- `"\n".join(...)` of line 99: the listing of all known pairings. -/
def knownListing (m : Store) : String :=
  String.intercalate "\n" ((sortedKeys m).map (listingLine m))

/-- The part of the module-level `form` template before the `{}` slot. -/
def formHead : String :=
  "<!DOCTYPE html>\n<title>Bookmark Server</title>\n<form method=\x22POST\x22>\n    <label>Long URI:\n        <input name=\x22longuri\x22>\n    </label>\n    <br>\n    <label>Short name:\n        <input name=\x22shortname\x22>\n    </label>\n    <br>\n    <button type=\x22submit\x22>Save it!</button>\n</form>\n<p>URIs I know about:\n<pre>\n"

/-- The part of the module-level `form` template after the `{}` slot. -/
def formTail : String := "\n</pre>\n"

/-- `form.format(known)`: the template with the listing substituted. -/
def formTemplate (known : String) : String := formHead ++ known ++ formTail

/-- Embedding of `Shortener.do_GET` (lines 72-101).  The handler never
issues a network request and never changes `memory`, so its result is just
the single response it sends paired with the unchanged store; it receives
the network oracle only because the module-level `CheckURI` is in scope for
it, and never consults it. -/
def do_GET (net : Net) (m : Store) (path : String) : Response × Store :=
  let name := unquote (stripSlash path)
  if name ≠ "" then
    match Lookup m name with
    | some uri =>
        ({ status := 303,
           headers := [("Content-type", "text/html; charset=utf-8"),
                       ("Location", uri)],
           body := "" }, m)
    | none =>
        ({ status := 404,
           headers := [("Content-type", "text/plain; charset=utf-8")],
           body := "I don\x27t know \x27" ++ name ++ "\x27." }, m)
  else
    ({ status := 200,
       headers := [("Content-type", "text/html")],
       body := formTemplate (knownListing m) }, m)

/-- The decoded form parameters of a POST body, as `urllib.parse.parse_qs`
returns them: a dict from field name to the list of submitted values. -/
abbrev Params : Type := List (String × List String)

/-- Python `params[key][0]`: `KeyError` if the key is absent, `IndexError`
if its value list is empty (unreachable for `parse_qs` output). -/
def firstValue (params : Params) (key : String) : Except PyExn String :=
  match dictGet params key with
  | none => Except.error (PyExn.keyError key)
  | some [] => Except.error PyExn.indexError
  | some (v :: _) => Except.ok v

/-- `expected_params = ["longuri", "shortname"]` (line 110). -/
def expectedParams : List String := ["longuri", "shortname"]

/-- `missing_params` (line 111): the expected fields absent from the body,
in the order of `expectedParams`. -/
def missingParams (params : Params) : List String :=
  expectedParams.filter (fun p => (dictGet params p).isNone)

/-- The 400 message of lines 114-116: the missing field names, each quoted,
comma-separated. -/
def missingMsg (missing : List String) : String :=
  "Required parameters missing: " ++
    String.intercalate ", " (missing.map (fun x => "\x22" ++ x ++ "\x22"))

/-- The result of running `Shortener.do_POST`: the responses sent in order
(the fall-through after `send_error(400, ...)` can be followed by nothing
else, but the field reads after it can raise), the store afterwards, the
trace of network requests issued, and the uncaught exception, if any. -/
structure POSTResult where
  sent : List Response
  store : Store
  trace : List GetRequest
  exn : Option PyExn
deriving DecidableEq, Repr

/-- Embedding of `Shortener.do_POST` (lines 103-135), starting from the
`parse_qs` output.  Note the source control flow: after `send_error(400, ...)`
there is no `return`, so execution falls through to the reads
`params["longuri"][0]` and `params["shortname"][0]`. -/
def do_POST (net : Net) (params : Params) (m : Store) : POSTResult :=
  let missing := missingParams params
  let sent0 : List Response :=
    if missing.isEmpty then [] else [errorResponse 400 (missingMsg missing)]
  match firstValue params "longuri" with
  | Except.error e => { sent := sent0, store := m, trace := [], exn := some e }
  | Except.ok longuri =>
    match firstValue params "shortname" with
    | Except.error e => { sent := sent0, store := m, trace := [], exn := some e }
    | Except.ok shortname =>
      match CheckURI net longuri checkURIDefaultTimeout with
      | (Except.error e, tr) =>
          { sent := sent0, store := m, trace := tr, exn := some e }
      | (Except.ok true, tr) =>
          { sent := sent0 ++
              [{ status := 303,
                 headers := [("Content-type", "text/html; charset=utf-8"),
                             ("Location", "/")],
                 body := "" }],
            store := BookmarkServer.Insert m shortname longuri,
            trace := tr,
            exn := none }
      | (Except.ok false, tr) =>
          { sent := sent0 ++ [errorResponse 404 ("Bad URI provided: " ++ longuri)],
            store := m,
            trace := tr,
            exn := none }

/-- The value of the most recent insert for a given alias in a sequence of
`Insert` calls (oldest first), if any. -/
def recentValue (ops : List (String × String)) (a : String) : Option String :=
  match ops with
  | [] => none
  | (k, v) :: rest =>
      match recentValue rest a with
      | some u => some u
      | none => if k = a then some v else none

/-- A network on which every GET completes with status 200. -/
def netAll200 : Net := fun _ => GetOutcome.status 200

/-- A network on which every GET completes with status 500. -/
def netAll500 : Net := fun _ => GetOutcome.status 500

/-- A network on which every GET times out. -/
def netAllTimeout : Net := fun _ => GetOutcome.timedOut

/-! ### Helper lemmas about the store -/

theorem dictGet_dictSet {β : Type} (d : List (String × β)) (key : String)
    (v : β) (x : String) :
    dictGet (dictSet d key v) x = if key = x then some v else dictGet d x := by
  induction d with
  | nil => simp [dictGet, dictSet]
  | cons p rest ih =>
      obtain ⟨k0, v0⟩ := p
      by_cases hk : k0 = key
      · subst hk
        simp only [dictSet, if_pos rfl, dictGet]
        split_ifs with h1 h2 <;> simp_all [dictGet]
      · simp only [dictSet, if_neg hk, dictGet, ih]
        split_ifs <;> simp_all

theorem mem_keys_dictSet {β : Type} (d : List (String × β)) (key : String)
    (v : β) (x : String) :
    x ∈ (dictSet d key v).map Prod.fst ↔ x = key ∨ x ∈ d.map Prod.fst := by
  induction d with
  | nil => simp [dictSet]
  | cons p rest ih =>
      obtain ⟨k0, v0⟩ := p
      by_cases hk : k0 = key
      · subst hk
        simp [dictSet] <;> tauto
      · simp [dictSet, hk, ih] <;> tauto

theorem keys_nodup_dictSet {β : Type} (d : List (String × β)) (key : String)
    (v : β) (h : (d.map Prod.fst).Nodup) :
    ((dictSet d key v).map Prod.fst).Nodup := by
  induction d with
  | nil => simp [dictSet]
  | cons p rest ih =>
      obtain ⟨k0, v0⟩ := p
      simp only [List.map_cons, List.nodup_cons] at h
      by_cases hk : k0 = key
      · subst hk
        simpa [dictSet] using h
      · simp only [dictSet, if_neg hk, List.map_cons, List.nodup_cons]
        refine ⟨fun hmem => ?_, ih h.2⟩
        rcases (mem_keys_dictSet rest key v k0).1 hmem with h1 | h1
        · exact hk h1
        · exact h.1 h1

theorem Lookup_Insert (m : Store) (key uri x : String) :
    Lookup (BookmarkServer.Insert m key uri) x =
      if key = x then some uri else Lookup m x :=
  dictGet_dictSet m key uri x

theorem Lookup_applyInserts (ops : List (String × String)) (m : Store)
    (a : String) :
    Lookup (applyInserts m ops) a =
      match recentValue ops a with
      | some u => some u
      | none => Lookup m a := by
  induction ops generalizing m with
  | nil => simp [applyInserts, recentValue]
  | cons p rest ih =>
      obtain ⟨k, v⟩ := p
      simp only [applyInserts, recentValue, ih (BookmarkServer.Insert m k v)]
      cases recentValue rest a with
      | some u => simp
      | none => by_cases hk : k = a <;> simp [Lookup_Insert, hk]

theorem recentValue_eq_none (ops : List (String × String)) (a : String)
    (h : a ∉ ops.map Prod.fst) : recentValue ops a = none := by
  induction ops with
  | nil => rfl
  | cons p rest ih =>
      obtain ⟨k, v⟩ := p
      simp only [List.map_cons, List.mem_cons] at h
      push_neg at h
      have hk : ¬ k = a := fun hk => h.1 hk.symm
      simp [recentValue, ih h.2, hk]

/-! ### Helper lemmas about sorting and decoding -/

theorem charEq_of_toNat_eq (a b : Char) (h : a.toNat = b.toNat) : a = b := by
  apply Char.eq_of_val_eq
  rcases ha : a.val with ⟨bv1⟩
  rcases hb : b.val with ⟨bv2⟩
  have hn : bv1.toNat = bv2.toNat := by
    have hx := h
    unfold Char.toNat UInt32.toNat at hx
    rw [ha, hb] at hx
    exact hx
  have : bv1 = bv2 := BitVec.eq_of_toNat_eq hn
  simp [this]

theorem lexLt_trans (as : List Char) :
    ∀ bs cs, lexLt as bs = true → lexLt bs cs = true → lexLt as cs = true := by
  induction as with
  | nil =>
      intro bs cs h1 h2
      cases bs with
      | nil => simp [lexLt] at h1
      | cons b bs' =>
          cases cs with
          | nil => simp [lexLt] at h2
          | cons c cs' => simp [lexLt]
  | cons a as' ih =>
      intro bs cs h1 h2
      cases bs with
      | nil => simp [lexLt] at h1
      | cons b bs' =>
          cases cs with
          | nil => simp [lexLt] at h2
          | cons c cs' =>
              simp only [lexLt] at h1 h2 ⊢
              by_cases hab : a.toNat < b.toNat
              · by_cases hbc : b.toNat < c.toNat
                · simp [Nat.lt_trans hab hbc]
                · by_cases hcb : c.toNat < b.toNat
                  · simp [hbc, hcb] at h2
                  · have hac : a.toNat < c.toNat := by omega
                    simp [hac]
              · by_cases hba : b.toNat < a.toNat
                · simp [hab, hba] at h1
                · by_cases hbc : b.toNat < c.toNat
                  · have hac : a.toNat < c.toNat := by omega
                    simp [hac]
                  · by_cases hcb : c.toNat < b.toNat
                    · simp [hbc, hcb] at h2
                    · have hac : ¬ a.toNat < c.toNat := by omega
                      have hca : ¬ c.toNat < a.toNat := by omega
                      simp [hab, hba] at h1
                      simp [hbc, hcb] at h2
                      simp [hac, hca]
                      exact ih bs' cs' h1 h2

theorem lexLt_trichotomy (as : List Char) :
    ∀ bs, lexLt as bs = true ∨ as = bs ∨ lexLt bs as = true := by
  induction as with
  | nil =>
      intro bs
      cases bs <;> simp [lexLt]
  | cons a as' ih =>
      intro bs
      cases bs with
      | nil => simp [lexLt]
      | cons b bs' =>
          by_cases hab : a.toNat < b.toNat
          · left
            simp [lexLt, hab]
          · by_cases hba : b.toNat < a.toNat
            · right; right
              simp [lexLt, hba]
            · have heq : a = b := charEq_of_toNat_eq a b (by omega)
              subst heq
              rcases ih bs' with h | h | h
              · left
                simp [lexLt, hab, h]
              · right; left
                rw [h]
              · right; right
                simp [lexLt, hab, h]

theorem strLe_total (a b : String) : strLe a b = true ∨ strLe b a = true := by
  rcases lexLt_trichotomy a.data b.data with h | h | h
  · left
    simp [strLe, strLt, h]
  · left
    have hab : a = b := String.ext h
    subst hab
    simp [strLe]
  · right
    simp [strLe, strLt, h]

theorem strLe_trans (a b c : String) (hab : strLe a b = true)
    (hbc : strLe b c = true) : strLe a c = true := by
  simp only [strLe, strLt, Bool.or_eq_true, beq_iff_eq] at hab hbc ⊢
  rcases hab with hab | hab
  · rcases hbc with hbc | hbc
    · exact Or.inl (lexLt_trans a.data b.data c.data hab hbc)
    · subst hbc
      exact Or.inl hab
  · subst hab
    exact hbc

theorem sortedKeys_sorted (m : Store) :
    (sortedKeys m).Sorted (fun a b => strLe a b = true) := by
  haveI : IsTotal String (fun a b => strLe a b = true) := ⟨strLe_total⟩
  haveI : IsTrans String (fun a b => strLe a b = true) := ⟨strLe_trans⟩
  exact List.sorted_insertionSort _ _

theorem sortedKeys_perm (m : Store) :
    (sortedKeys m).Perm (m.map Prod.fst) :=
  List.perm_insertionSort _ _

theorem sortedKeys_strict (m : Store) (h : (m.map Prod.fst).Nodup) :
    (sortedKeys m).Sorted (fun a b => strLt a b = true) := by
  have hnd : (sortedKeys m).Nodup := (sortedKeys_perm m).nodup_iff.2 h
  refine (sortedKeys_sorted m).imp₂ (fun a b hab hne => ?_) hnd
  simp only [strLe, Bool.or_eq_true, beq_iff_eq] at hab
  rcases hab with hab | hab
  · exact hab
  · exact absurd hab hne

theorem unquoteChars_ne_nil (l : List Char) (h : l ≠ []) :
    unquoteChars l ≠ [] := by
  unfold unquoteChars
  split
  · exact absurd rfl h
  · split <;> simp
  · simp

theorem unquote_ne_empty (s : String) (h : s ≠ "") : unquote s ≠ "" := by
  intro hc
  have hdata : unquoteChars s.data = [] := congrArg String.data hc
  have hne : s.data ≠ [] := fun hd => h (String.ext hd)
  exact unquoteChars_ne_nil s.data hne hdata

theorem firstValue_ok (params : Params) (key v : String)
    (h : firstValue params key = Except.ok v) :
    ∃ tail, dictGet params key = some (v :: tail) := by
  unfold firstValue at h
  rcases hd : dictGet params key with _ | vs
  · rw [hd] at h
    cases h
  · rw [hd] at h
    cases vs with
    | nil => cases h
    | cons a tl =>
        simp only [Except.ok.injEq] at h
        subst h
        exact ⟨tl, rfl⟩

theorem dictGet_of_mem_keys {β : Type} (d : List (String × β)) (k : String)
    (h : k ∈ d.map Prod.fst) : ∃ u, dictGet d k = some u := by
  induction d with
  | nil => simp at h
  | cons p rest ih =>
      obtain ⟨k0, v0⟩ := p
      by_cases hk : k0 = k
      · exact ⟨v0, by simp [dictGet, hk]⟩
      · simp only [List.map_cons, List.mem_cons] at h
        rcases h with h | h
        · exact absurd h.symm hk
        · obtain ⟨u, hu⟩ := ih h
          exact ⟨u, by simp [dictGet, hk, hu]⟩

/-! ### Claim theorems -/

/-- C1: the claim says `CheckURI` never lets a transport exception propagate
and that a timeout or connection-level failure yields `false`.  The source
catches only `requests.exceptions.MissingSchema`, so a timeout and a
connection failure escape as exceptions instead of producing `false`:
evaluating the embedding on a network that times out (and on one that
refuses connections) yields a propagated exception, not `Except.ok false`. -/
theorem checkURI_timeout_exception_escapes :
    (CheckURI netAllTimeout "http://example.com/slow" checkURIDefaultTimeout).1 =
      Except.error PyExn.requestsTimeout ∧
    (CheckURI (fun _ => GetOutcome.connectionError) "http://example.com/down"
        checkURIDefaultTimeout).1 = Except.error PyExn.requestsConnectionError ∧
    (CheckURI netAllTimeout "http://example.com/slow" checkURIDefaultTimeout).1 ≠
      Except.ok false :=
  ⟨rfl, rfl, fun hc => Except.noConfusion hc⟩

/-- C2: the claim says that on a POST with missing fields the handler
responds 400 and stops before reading the `longuri`/`shortname` values.  In
the source there is no `return` after `send_error(400, ...)`, so execution
falls through to `params["longuri"][0]`: on an empty body the handler sends
the 400 response and then raises `KeyError` for `longuri` (and with only
`longuri` supplied, `KeyError` for `shortname`). -/
theorem post_missing_fields_reads_after_400 :
    (do_POST netAll200 [] emptyStore).sent =
      [errorResponse 400 "Required parameters missing: \x22longuri\x22, \x22shortname\x22"] ∧
    (do_POST netAll200 [] emptyStore).exn = some (PyExn.keyError "longuri") ∧
    (do_POST netAll200 [("longuri", ["http://example.com/"])] emptyStore).exn =
      some (PyExn.keyError "shortname") :=
  ⟨rfl, rfl, rfl⟩

/-- C8: when the outbound GET completes with a response, `CheckURI` returns
`true` exactly when the status code is 200; any other code yields `false`. -/
theorem checkURI_true_iff_status_200 (net : Net) (uri : String) (t code : Nat)
    (h : net { uri := uri, timeoutTenths := requestTimeoutTenths } =
      GetOutcome.status code) :
    (CheckURI net uri t).1 = Except.ok (code == 200) ∧
    ((CheckURI net uri t).1 = Except.ok true ↔ code = 200) := by
  refine ⟨by simp [CheckURI, h], ?_⟩
  simp [CheckURI, h]

/-- Witness for C8 at a network answering 500: the check returns `false`
and does not return `true`. -/
theorem checkURI_true_iff_status_200_witness :
    (CheckURI netAll500 "http://example.com/" checkURIDefaultTimeout).1 =
      Except.ok false ∧
    ¬ (CheckURI netAll500 "http://example.com/" checkURIDefaultTimeout).1 =
      Except.ok true := by
  have h := checkURI_true_iff_status_200 netAll500 "http://example.com/"
    checkURIDefaultTimeout 500 rfl
  exact ⟨by rw [h.1]; rfl, fun hc => absurd (h.2.1 hc) (by decide)⟩

/-- C9 counterexample: called with a timeout argument of 1 second,
`CheckURI` still issues its GET with the hard-coded `timeout=2.0` of
`requests.get`, so the request is not bounded by the timeout it was given. -/
theorem checkURI_ignores_timeout_argument_counterexample :
    (CheckURI netAll200 "http://example.com/" 1).2 =
      [{ uri := "http://example.com/", timeoutTenths := 20 }] ∧
    ¬ (∀ r ∈ (CheckURI netAll200 "http://example.com/" 1).2,
        r.timeoutTenths ≤ 10 * 1) := by
  constructor
  · rfl
  · decide

/-- C9 amended: for every network, URI and timeout argument, `CheckURI`
issues exactly one outbound GET, to that URI, with the fixed `requests.get`
timeout of 2.0 seconds — the timeout argument (default 5) is ignored, and
there is no retry. -/
theorem checkURI_single_get_fixed_timeout (net : Net) (uri : String) (t : Nat) :
    (CheckURI net uri t).2 =
      [{ uri := uri, timeoutTenths := requestTimeoutTenths }] := by
  rcases h : net { uri := uri, timeoutTenths := requestTimeoutTenths } <;>
    simp [CheckURI, h]

/-- C3: on a POST carrying both fields, if the reachability check on the
first `longuri` value returns `true` the store gains or overwrites the
mapping from the first `shortname` value to it and the reply is a single
303 with `Location: /`; if it returns `false` the reply is a single 404
whose message names the rejected long URI and the store is unchanged. -/
theorem post_both_fields_check_decides (net : Net) (params : Params)
    (m : Store) (lu sn : String) (lus sns : List String)
    (hl : dictGet params "longuri" = some (lu :: lus))
    (hs : dictGet params "shortname" = some (sn :: sns)) :
    ((CheckURI net lu checkURIDefaultTimeout).1 = Except.ok true →
       (do_POST net params m).store = BookmarkServer.Insert m sn lu ∧
       Lookup (do_POST net params m).store sn = some lu ∧
       (do_POST net params m).sent =
         [{ status := 303,
            headers := [("Content-type", "text/html; charset=utf-8"),
                        ("Location", "/")],
            body := "" }]) ∧
    ((CheckURI net lu checkURIDefaultTimeout).1 = Except.ok false →
       (do_POST net params m).store = m ∧
       (do_POST net params m).sent =
         [errorResponse 404 ("Bad URI provided: " ++ lu)] ∧
       ∃ p q, ((do_POST net params m).sent.map Response.body) =
         [p ++ lu ++ q]) := by
  have hmiss : missingParams params = [] := by
    simp [missingParams, expectedParams, hl, hs]
  have hfl : firstValue params "longuri" = Except.ok lu := by
    simp [firstValue, hl]
  have hfs : firstValue params "shortname" = Except.ok sn := by
    simp [firstValue, hs]
  rcases hC : CheckURI net lu checkURIDefaultTimeout with ⟨res, tr⟩
  constructor
  · intro htrue
    simp only at htrue
    subst htrue
    refine ⟨?_, ?_, ?_⟩ <;>
      simp [do_POST, hmiss, hfl, hfs, hC, Lookup_Insert]
  · intro hfalse
    simp only at hfalse
    subst hfalse
    refine ⟨?_, ?_, ⟨"Bad URI provided: ", "", ?_⟩⟩ <;>
      simp [do_POST, hmiss, hfl, hfs, hC, errorResponse]

/-- Witness for C3: with both fields present, a network answering 200
inserts the mapping and redirects to `/`; one answering 500 leaves the
store unchanged and replies 404 naming the URI. -/
theorem post_both_fields_check_decides_witness :
    (do_POST netAll200
        [("longuri", ["http://example.com/"]), ("shortname", ["ex"])]
        emptyStore).store = [("ex", "http://example.com/")] ∧
    (do_POST netAll500
        [("longuri", ["http://example.com/"]), ("shortname", ["ex"])]
        emptyStore).store = emptyStore ∧
    (do_POST netAll500
        [("longuri", ["http://example.com/"]), ("shortname", ["ex"])]
        emptyStore).sent =
      [errorResponse 404 "Bad URI provided: http://example.com/"] := by
  have h1 := (post_both_fields_check_decides netAll200
    [("longuri", ["http://example.com/"]), ("shortname", ["ex"])]
    emptyStore "http://example.com/" "ex" [] [] rfl rfl).1 rfl
  have h2 := (post_both_fields_check_decides netAll500
    [("longuri", ["http://example.com/"]), ("shortname", ["ex"])]
    emptyStore "http://example.com/" "ex" [] [] rfl rfl).2 rfl
  exact ⟨h1.1.trans rfl, h2.1, h2.2.1.trans rfl⟩

/-- C4: a GET whose path is `/` followed by a non-empty remainder treats
the percent-decoded remainder as the alias: a stored alias yields a 303
whose `Location` is the stored long URI, an unknown alias yields a 404
whose plain-text body contains the decoded alias. -/
theorem get_nonempty_path_resolves_decoded_alias (net : Net) (m : Store)
    (rest : String) (hrest : rest ≠ "") :
    (∀ uri, Lookup m (unquote rest) = some uri →
       do_GET net m ("/" ++ rest) =
         ({ status := 303,
            headers := [("Content-type", "text/html; charset=utf-8"),
                        ("Location", uri)],
            body := "" }, m)) ∧
    (Lookup m (unquote rest) = none →
       do_GET net m ("/" ++ rest) =
         ({ status := 404,
            headers := [("Content-type", "text/plain; charset=utf-8")],
            body := "I don\x27t know \x27" ++ unquote rest ++ "\x27." }, m) ∧
       ∃ p q, (do_GET net m ("/" ++ rest)).1.body = p ++ unquote rest ++ q) := by
  have hstrip : stripSlash ("/" ++ rest) = rest := by
    apply String.ext
    show (("/" ++ rest).data.drop 1) = rest.data
    rfl
  have hname : unquote rest ≠ "" := unquote_ne_empty rest hrest
  constructor
  · intro uri huri
    simp [do_GET, hstrip, hname, huri]
  · intro hnone
    refine ⟨?_, "I don\x27t know \x27", "\x27.", ?_⟩ <;>
      simp [do_GET, hstrip, hname, hnone]

/-- Witness for C4: `/a%62c` decodes to alias `abc`, which is stored, so
the reply is a 303 to the stored URI; an unknown alias gives a 404 whose
body names it. -/
theorem get_nonempty_path_resolves_decoded_alias_witness :
    do_GET netAll200 [("abc", "http://x")] ("/" ++ "a%62c") =
      ({ status := 303,
         headers := [("Content-type", "text/html; charset=utf-8"),
                     ("Location", "http://x")],
         body := "" }, [("abc", "http://x")]) ∧
    do_GET netAll200 emptyStore ("/" ++ "zzz") =
      ({ status := 404,
         headers := [("Content-type", "text/plain; charset=utf-8")],
         body := "I don\x27t know \x27zzz\x27." }, emptyStore) := by
  constructor
  · exact (get_nonempty_path_resolves_decoded_alias netAll200
      [("abc", "http://x")] "a%62c" (by decide)).1 "http://x" (by decide)
  · have h := ((get_nonempty_path_resolves_decoded_alias netAll200
      emptyStore "zzz" (by decide)).2 (by decide)).1
    exact h.trans (by decide)

/-- C5: a GET for the root path replies 200 with the HTML form whose
listing has one `alias : uri` line per stored mapping, the aliases in
strictly ascending lexicographic order without duplicates, leaves the store
unchanged, and is independent of the network (it never invokes the
reachability checker). -/
theorem get_root_lists_sorted_mappings (net net2 : Net) (m : Store)
    (path : String) (hpath : unquote (stripSlash path) = "")
    (hnd : (m.map Prod.fst).Nodup) :
    (do_GET net m path).1.status = 200 ∧
    (do_GET net m path).1.headers = [("Content-type", "text/html")] ∧
    (do_GET net m path).1.body =
      formHead ++ String.intercalate "\n" ((sortedKeys m).map (listingLine m)) ++
        formTail ∧
    (do_GET net m path).2 = m ∧
    (sortedKeys m).Perm (m.map Prod.fst) ∧
    (sortedKeys m).Sorted (fun a b => strLt a b = true) ∧
    (∀ k, k ∈ sortedKeys m →
       ∃ u, Lookup m k = some u ∧ listingLine m k = k ++ " : " ++ u) ∧
    do_GET net m path = do_GET net2 m path := by
  refine ⟨?_, ?_, ?_, ?_, sortedKeys_perm m, sortedKeys_strict m hnd, ?_, rfl⟩
  · simp [do_GET, hpath]
  · simp [do_GET, hpath]
  · simp [do_GET, hpath, formTemplate, knownListing]
  · simp [do_GET, hpath]
  · intro k hk
    have hmem : k ∈ m.map Prod.fst := (sortedKeys_perm m).mem_iff.1 hk
    obtain ⟨u, hu⟩ := dictGet_of_mem_keys m k hmem
    exact ⟨u, hu, by simp [listingLine, Lookup, hu]⟩

/-- Witness for C5 on the store `{"b": "http://x", "a": "http://y"}`: the
root page lists `a : http://y` before `b : http://x`. -/
theorem get_root_lists_sorted_mappings_witness :
    (do_GET netAll200 [("b", "http://x"), ("a", "http://y")] "/").1.status =
      200 ∧
    (do_GET netAll200 [("b", "http://x"), ("a", "http://y")] "/").1.body =
      formHead ++ "a : http://y\nb : http://x" ++ formTail := by
  have h := get_root_lists_sorted_mappings netAll200 netAll500
    [("b", "http://x"), ("a", "http://y")] "/" (by decide) (by decide)
  exact ⟨h.1, h.2.2.1.trans (by decide)⟩

/-- C6: a lookup of an alias never inserted is absent; after any sequence
of inserts a lookup returns the value of the most recent insert for that
alias; and inserting preserves the key-uniqueness of the store, so at most
one URI is associated with an alias at any time. -/
theorem store_lookup_insert_semantics (a : String)
    (ops : List (String × String)) (m : Store) (u : String) :
    Lookup (applyInserts emptyStore ops) a = recentValue ops a ∧
    (a ∉ ops.map Prod.fst → Lookup (applyInserts emptyStore ops) a = none) ∧
    (∀ x, Lookup (BookmarkServer.Insert m a u) x =
       if a = x then some u else Lookup m x) ∧
    ((m.map Prod.fst).Nodup →
       ((BookmarkServer.Insert m a u).map Prod.fst).Nodup) := by
  have hbase : Lookup (applyInserts emptyStore ops) a = recentValue ops a := by
    rw [Lookup_applyInserts]
    cases recentValue ops a <;> simp [Lookup, dictGet, emptyStore]
  refine ⟨hbase, ?_, fun x => Lookup_Insert m a u x, keys_nodup_dictSet m a u⟩
  intro hnot
  rw [hbase, recentValue_eq_none ops a hnot]

/-- Witness for C6: two inserts under the same alias leave the later value;
an alias never inserted looks up as absent. -/
theorem store_lookup_insert_semantics_witness :
    Lookup (applyInserts emptyStore [("x", "u1"), ("y", "w"), ("x", "u2")])
      "x" = some "u2" ∧
    Lookup (applyInserts emptyStore [("x", "u1")]) "z" = none := by
  constructor
  · exact ((store_lookup_insert_semantics "x"
      [("x", "u1"), ("y", "w"), ("x", "u2")] emptyStore "u").1).trans (by decide)
  · exact (store_lookup_insert_semantics "z" [("x", "u1")] emptyStore
      "u").2.1 (by decide)

/-- C7: the 400 reply for a POST with missing fields carries a message
listing exactly the missing field names, each quoted, comma-separated, with
`longuri` before `shortname` when both are missing. -/
theorem post_400_message_lists_missing_fields (net : Net) (params : Params)
    (m : Store) :
    (dictGet params "longuri" = none → dictGet params "shortname" = none →
       (do_POST net params m).sent =
         [errorResponse 400
           "Required parameters missing: \x22longuri\x22, \x22shortname\x22"]) ∧
    (dictGet params "longuri" = none →
       (dictGet params "shortname").isSome = true →
       (do_POST net params m).sent =
         [errorResponse 400 "Required parameters missing: \x22longuri\x22"]) ∧
    ((dictGet params "longuri").isSome = true →
       dictGet params "shortname" = none →
       (do_POST net params m).sent =
         [errorResponse 400 "Required parameters missing: \x22shortname\x22"]) := by
  refine ⟨?_, ?_, ?_⟩
  · intro hl hs
    simp [do_POST, missingParams, expectedParams, missingMsg, firstValue,
      hl, hs]
    rfl
  · intro hl hs
    obtain ⟨ws, hws⟩ := Option.isSome_iff_exists.1 hs
    simp [do_POST, missingParams, expectedParams, missingMsg, firstValue,
      hl, hws]
    rfl
  · intro hl hs
    obtain ⟨vs, hvs⟩ := Option.isSome_iff_exists.1 hl
    cases vs with
    | nil =>
        simp [do_POST, missingParams, expectedParams, missingMsg, firstValue,
          hvs, hs]
        rfl
    | cons v vtl =>
        simp [do_POST, missingParams, expectedParams, missingMsg, firstValue,
          hvs, hs]
        rfl

/-- Witness for C7: a body with only `longuri` gets a 400 naming
`"shortname"`; an empty body gets a 400 naming both fields in order. -/
theorem post_400_message_lists_missing_fields_witness :
    (do_POST netAll200 [("longuri", ["http://example.com/"])] emptyStore).sent =
      [errorResponse 400 "Required parameters missing: \x22shortname\x22"] ∧
    (do_POST netAll200 [] emptyStore).sent =
      [errorResponse 400
        "Required parameters missing: \x22longuri\x22, \x22shortname\x22"] := by
  constructor
  · exact (post_400_message_lists_missing_fields netAll200
      [("longuri", ["http://example.com/"])] emptyStore).2.2 (by decide)
      (by decide)
  · exact (post_400_message_lists_missing_fields netAll200 [] emptyStore).1
      rfl rfl

/-- C10: every GET leaves the store unchanged, and a POST either leaves it
unchanged or — only when both fields are present and the reachability check
on the first `longuri` value returned `true` — replaces it by the insert of
that mapping. -/
theorem get_pure_post_mutates_only_on_success (net : Net) (m : Store)
    (path : String) (params : Params) :
    (do_GET net m path).2 = m ∧
    ((do_POST net params m).store = m ∨
      ∃ lu lus sn sns,
        dictGet params "longuri" = some (lu :: lus) ∧
        dictGet params "shortname" = some (sn :: sns) ∧
        (CheckURI net lu checkURIDefaultTimeout).1 = Except.ok true ∧
        (do_POST net params m).store = BookmarkServer.Insert m sn lu) := by
  constructor
  · by_cases h : unquote (stripSlash path) = "" <;>
      · rcases hL : Lookup m (unquote (stripSlash path)) <;>
          simp [do_GET, h, hL]
  · rcases hfl : firstValue params "longuri" with e | lu
    · left
      simp [do_POST, hfl]
    · rcases hfs : firstValue params "shortname" with e | sn
      · left
        simp [do_POST, hfl, hfs]
      · rcases hC : CheckURI net lu checkURIDefaultTimeout with ⟨res, tr⟩
        rcases res with e | b
        · left
          simp [do_POST, hfl, hfs, hC]
        · cases b with
          | false =>
              left
              simp [do_POST, hfl, hfs, hC]
          | true =>
              right
              obtain ⟨lus, hl⟩ := firstValue_ok params "longuri" lu hfl
              obtain ⟨sns, hs⟩ := firstValue_ok params "shortname" sn hfs
              refine ⟨lu, lus, sn, sns, hl, hs, by rw [hC], ?_⟩
              simp [do_POST, hfl, hfs, hC]

end BookmarkServer
